import Mathlib

/-!
Verification of the streampro ETL pipeline core against its specification.

The development shallowly embeds the repository's ETL orchestration layer:
the `BaseProcessor.run` template method and its `JobResult`/`ProcessingResult`
outcome model (src/core/base_processor.py), the Landing-to-Raw processor's
extract and load phases (src/core/landing_to_raw_processor.py), the
Raw-to-Trusted processor's extract plan, transform and load phases and the
view-literal rendering of its post-process (src/core/raw_to_trusted_processor.py),
and the schema registry's catalog and view-DDL builder
(src/utils/schema_registry.py).

External collaborators (the MinIO object store and the Trino query engine)
are modelled as explicit function parameters returning `Except String`:
an `Except.error e` models a Python exception whose `str` is `e`.
Python dictionaries are modelled as association lists with in-place
key overwrite, matching insertion-order semantics.
-/

/-- Values stored in the free-form metadata dictionaries of
`ProcessingResult` and `JobResult`. -/
inductive MetaVal where
  | nat (n : Nat)
  | str (s : String)
  | bool (b : Bool)
  | strList (l : List String)
  | pairList (l : List (String × String))
deriving DecidableEq

/-- A Python dict with string keys, as an insertion-ordered association list. -/
abbrev Dict (α : Type) := List (String × α)

/-- Python dict assignment `d[k] = v`: overwrite in place if the key exists
(keeping its position), otherwise append at the end. -/
def dictInsert {α : Type} : Dict α → String → α → Dict α
  | [], k, v => [(k, v)]
  | (k0, v0) :: rest, k, v =>
    if k0 = k then (k0, v) :: rest else (k0, v0) :: dictInsert rest k v

/-- `JobStatus` from src/core/base_processor.py. -/
inductive JobStatus where
  | success
  | failed
deriving DecidableEq

/-- `JobResult` from src/core/base_processor.py.  Wall-clock timestamps are
abstracted into the measured `duration_seconds` (a `Nat`, abstract ticks);
`metadata=None` normalised by `__post_init__` is the empty dict. -/
structure JobResult where
  job_id : String
  status : JobStatus
  duration_seconds : Nat
  message : Option String := none
  error : Option String := none
  metadata : Dict MetaVal := []
deriving DecidableEq

/-- `JobResult.is_success` from src/core/base_processor.py. -/
def JobResult.is_success (r : JobResult) : Bool :=
  r.status = JobStatus.success

/-- `ProcessingResult` from src/core/base_processor.py
(`tables_created=None` normalised by `__post_init__` is the empty list). -/
structure ProcessingResult where
  success : Bool
  message : String
  metadata : Dict MetaVal
  rows_processed : Nat := 0
  tables_created : List String := []
deriving DecidableEq

/-- A concrete processor: the five overridable phases of `BaseProcessor`.
Each phase either returns a value (`Except.ok`) or raises (`Except.error`).
`post_process` receives the load's `ProcessingResult` and may mutate it in
place (Python mutation is modelled by returning the updated result). -/
structure Processor (E T : Type) where
  processor_id : String
  pre_process : Except String Unit
  extract : Except String E
  transform : E → Except String T
  load : T → Except String ProcessingResult
  post_process : ProcessingResult → Except String ProcessingResult

/-- The five phase names, used to record which phases a run executed. -/
inductive Phase where
  | pre_process
  | extract
  | transform
  | load
  | post_process
deriving DecidableEq

/-- `BaseProcessor.run` from src/core/base_processor.py, lines 64-109:
the try block runs the five phases in order; the first exception aborts the
sequence and is converted into a FAILED `JobResult` carrying `str(e)` and the
measured duration (the FAILED result has no message and empty metadata).
If all phases return, a SUCCESS `JobResult` is built from the (possibly
post-process-updated) load result, its metadata extended with the
`rows_processed` and `tables_created` keys.  `run` is a total function:
no exception propagates to the caller.  Alongside the `JobResult` it
returns the list of phases that were entered, in execution order. -/
def BaseProcessor.run {E T : Type} (p : Processor E T) (dur : Nat) :
    JobResult × List Phase :=
  match p.pre_process with
  | .error e => (⟨p.processor_id, .failed, dur, none, some e, []⟩, [.pre_process])
  | .ok _ =>
    match p.extract with
    | .error e => (⟨p.processor_id, .failed, dur, none, some e, []⟩,
        [.pre_process, .extract])
    | .ok extracted_data =>
      match p.transform extracted_data with
      | .error e => (⟨p.processor_id, .failed, dur, none, some e, []⟩,
          [.pre_process, .extract, .transform])
      | .ok transformed_data =>
        match p.load transformed_data with
        | .error e => (⟨p.processor_id, .failed, dur, none, some e, []⟩,
            [.pre_process, .extract, .transform, .load])
        | .ok load_result0 =>
          match p.post_process load_result0 with
          | .error e => (⟨p.processor_id, .failed, dur, none, some e, []⟩,
              [.pre_process, .extract, .transform, .load, .post_process])
          | .ok load_result =>
            (⟨p.processor_id, .success, dur, some load_result.message, none,
                dictInsert
                  (dictInsert load_result.metadata "rows_processed"
                    (.nat load_result.rows_processed))
                  "tables_created" (.strList load_result.tables_created)⟩,
              [.pre_process, .extract, .transform, .load, .post_process])

/-- The run raises at phase `ph` with exception description `e`: the phases
before `ph` all return and `ph` itself raises. -/
inductive RaisesAt {E T : Type} (p : Processor E T) : Phase → String → Prop where
  | pre {e} : p.pre_process = .error e → RaisesAt p .pre_process e
  | ext {e} : p.pre_process = .ok () → p.extract = .error e →
      RaisesAt p .extract e
  | tra {e x} : p.pre_process = .ok () → p.extract = .ok x →
      p.transform x = .error e → RaisesAt p .transform e
  | load {e x t} : p.pre_process = .ok () → p.extract = .ok x →
      p.transform x = .ok t → p.load t = .error e → RaisesAt p .load e
  | post {e x t lr} : p.pre_process = .ok () → p.extract = .ok x →
      p.transform x = .ok t → p.load t = .ok lr →
      p.post_process lr = .error e → RaisesAt p .post_process e

/-- The prefix of the phase sequence that executes when phase `ph` raises:
`ph` itself and everything before it, nothing after it. -/
def phasesUpTo : Phase → List Phase
  | .pre_process => [.pre_process]
  | .extract => [.pre_process, .extract]
  | .transform => [.pre_process, .extract, .transform]
  | .load => [.pre_process, .extract, .transform, .load]
  | .post_process => [.pre_process, .extract, .transform, .load, .post_process]

theorem lookup_dictInsert_self {α : Type} (d : Dict α) (k : String) (v : α) :
    List.lookup k (dictInsert d k v) = some v := by
  induction d with
  | nil => simp [dictInsert, List.lookup]
  | cons hd tl ih =>
    obtain ⟨k0, v0⟩ := hd
    by_cases h : k0 = k
    · subst h
      simp [dictInsert, List.lookup]
    · have hb : (k == k0) = false := by simp [Ne.symm h]
      simp [dictInsert, h, List.lookup, hb, ih]

theorem lookup_dictInsert_ne {α : Type} (d : Dict α) (k k' : String) (v : α)
    (h : k' ≠ k) : List.lookup k' (dictInsert d k v) = List.lookup k' d := by
  induction d with
  | nil =>
    have hb : (k' == k) = false := by simp [h]
    simp [dictInsert, List.lookup, hb]
  | cons hd tl ih =>
    obtain ⟨k0, v0⟩ := hd
    by_cases h0 : k0 = k
    · subst h0
      have hb : (k' == k0) = false := by simp [h]
      simp [dictInsert, List.lookup, hb]
    · by_cases h1 : k' = k0
      · subst h1
        simp [dictInsert, h0, List.lookup]
      · have hb : (k' == k0) = false := by simp [h1]
        simp [dictInsert, h0, List.lookup, hb, ih]

/-- C1: if any of the five phases raises, `run` returns a FAILED `JobResult`
carrying the measured duration and the exception's description in `error`,
and only the phases up to and including the failing one execute (the trace
is `phasesUpTo ph`, which contains no later phase).  `BaseProcessor.run` is
a total Lean function, which embeds the fact that no exception propagates
out of `run()`. -/
theorem run_phase_failure {E T : Type} (p : Processor E T) (dur : Nat)
    (ph : Phase) (e : String) (h : RaisesAt p ph e) :
    (BaseProcessor.run p dur).1.status = JobStatus.failed ∧
    (BaseProcessor.run p dur).1.error = some e ∧
    (BaseProcessor.run p dur).1.duration_seconds = dur ∧
    (BaseProcessor.run p dur).2 = phasesUpTo ph := by
  cases h with
  | pre h1 => simp [BaseProcessor.run, h1, phasesUpTo]
  | ext h1 h2 => simp [BaseProcessor.run, h1, h2, phasesUpTo]
  | tra h1 h2 h3 => simp [BaseProcessor.run, h1, h2, h3, phasesUpTo]
  | load h1 h2 h3 h4 => simp [BaseProcessor.run, h1, h2, h3, h4, phasesUpTo]
  | post h1 h2 h3 h4 h5 =>
    simp [BaseProcessor.run, h1, h2, h3, h4, h5, phasesUpTo]

/-- A demonstration processor whose extract phase raises. -/
def demoFailingExtract : Processor Nat Nat where
  processor_id := "landing_to_raw_processor"
  pre_process := .ok ()
  extract := .error "connection refused"
  transform := fun n => .ok n
  load := fun _ => .ok ⟨true, "ok", [], 0, []⟩
  post_process := fun r => .ok r

/-- C1 witness: a concrete run whose extract raises yields a FAILED result
with the exception text, and the transform/load/post phases never execute. -/
theorem run_phase_failure_witness :
    (BaseProcessor.run demoFailingExtract 7).1.status = JobStatus.failed ∧
    (BaseProcessor.run demoFailingExtract 7).1.error =
      some "connection refused" ∧
    (BaseProcessor.run demoFailingExtract 7).1.duration_seconds = 7 ∧
    (BaseProcessor.run demoFailingExtract 7).2 =
      phasesUpTo Phase.extract :=
  run_phase_failure demoFailingExtract 7 Phase.extract "connection refused"
    (RaisesAt.ext rfl rfl)

/-- C2: if no phase raises, `run` returns a SUCCESS `JobResult` whose message
is the final `ProcessingResult`'s message and whose metadata is the final
`ProcessingResult`'s metadata extended with `rows_processed` (the result's
row count) and `tables_created` (the result's created-table list); both keys
are always present (they overwrite any same-named key of the metadata). -/
theorem run_success_shape {E T : Type} (p : Processor E T) (dur : Nat)
    (x : E) (t : T) (lr lr2 : ProcessingResult)
    (h1 : p.pre_process = .ok ()) (h2 : p.extract = .ok x)
    (h3 : p.transform x = .ok t) (h4 : p.load t = .ok lr)
    (h5 : p.post_process lr = .ok lr2) :
    (BaseProcessor.run p dur).1.status = JobStatus.success ∧
    (BaseProcessor.run p dur).1.message = some lr2.message ∧
    (BaseProcessor.run p dur).1.metadata =
      dictInsert
        (dictInsert lr2.metadata "rows_processed" (.nat lr2.rows_processed))
        "tables_created" (.strList lr2.tables_created) ∧
    List.lookup "rows_processed" (BaseProcessor.run p dur).1.metadata =
      some (.nat lr2.rows_processed) ∧
    List.lookup "tables_created" (BaseProcessor.run p dur).1.metadata =
      some (.strList lr2.tables_created) := by
  have hmeta : (BaseProcessor.run p dur).1.metadata =
      dictInsert
        (dictInsert lr2.metadata "rows_processed" (.nat lr2.rows_processed))
        "tables_created" (.strList lr2.tables_created) := by
    simp [BaseProcessor.run, h1, h2, h3, h4, h5]
  refine ⟨?_, ?_, hmeta, ?_, ?_⟩
  · simp [BaseProcessor.run, h1, h2, h3, h4, h5]
  · simp [BaseProcessor.run, h1, h2, h3, h4, h5]
  · rw [hmeta, lookup_dictInsert_ne _ _ _ _ (by decide),
      lookup_dictInsert_self]
  · rw [hmeta, lookup_dictInsert_self]

/-- A demonstration processor whose five phases all return. -/
def demoSuccess : Processor Nat Nat where
  processor_id := "raw_to_trusted_processor"
  pre_process := .ok ()
  extract := .ok 4
  transform := fun n => .ok (n + 1)
  load := fun n =>
    .ok ⟨true, "Created 4 trusted parquet tables", [("format", .str "PARQUET")],
      n, ["trusted_users"]⟩
  post_process := fun r => .ok r

/-- C2 witness: the success-path `JobResult` of a concrete run carries the
load result's message and its metadata extended with the two keys. -/
theorem run_success_shape_witness :
    (BaseProcessor.run demoSuccess 3).1.status = JobStatus.success ∧
    (BaseProcessor.run demoSuccess 3).1.message =
      some "Created 4 trusted parquet tables" ∧
    (BaseProcessor.run demoSuccess 3).1.metadata =
      dictInsert
        (dictInsert [("format", .str "PARQUET")] "rows_processed" (.nat 5))
        "tables_created" (.strList ["trusted_users"]) ∧
    List.lookup "rows_processed" (BaseProcessor.run demoSuccess 3).1.metadata =
      some (.nat 5) ∧
    List.lookup "tables_created" (BaseProcessor.run demoSuccess 3).1.metadata =
      some (.strList ["trusted_users"]) :=
  run_success_shape demoSuccess 3 4 5
    ⟨true, "Created 4 trusted parquet tables", [("format", .str "PARQUET")],
      5, ["trusted_users"]⟩
    ⟨true, "Created 4 trusted parquet tables", [("format", .str "PARQUET")],
      5, ["trusted_users"]⟩
    rfl rfl rfl rfl rfl

/-- C3: when the load phase returns a `ProcessingResult` with `success=False`
but no phase raises, `run` still returns a SUCCESS `JobResult`
(`is_success = true`): the framework never inspects the `ProcessingResult`'s
success flag when deciding the job status. -/
theorem run_ignores_result_success_flag {E T : Type} (p : Processor E T)
    (dur : Nat) (x : E) (t : T) (lr lr2 : ProcessingResult)
    (h1 : p.pre_process = .ok ()) (h2 : p.extract = .ok x)
    (h3 : p.transform x = .ok t) (h4 : p.load t = .ok lr)
    (h5 : p.post_process lr = .ok lr2) (h6 : lr.success = false) :
    (BaseProcessor.run p dur).1.is_success = true := by
  simp [BaseProcessor.run, JobResult.is_success, h1, h2, h3, h4, h5]

/-- A demonstration processor whose load reports a per-item failure
(`success=False`) without raising, as Landing-to-Raw does when a copy fails. -/
def demoFailedLoadFlag : Processor Nat Nat where
  processor_id := "landing_to_raw_processor"
  pre_process := .ok ()
  extract := .ok 0
  transform := fun n => .ok n
  load := fun _ =>
    .ok ⟨false, "Copied 0 files to raw layer with ingestion_date partitioning, 1 failed",
      [("failed_copies", .pairList [("users.csv", "Copy operation failed")])],
      1, []⟩
  post_process := fun r => .ok r

/-- C3 witness: a concrete run whose load result has `success=False` still
produces a JobResult with `is_success = true`. -/
theorem run_ignores_result_success_flag_witness :
    (BaseProcessor.run demoFailedLoadFlag 2).1.is_success = true :=
  run_ignores_result_success_flag demoFailedLoadFlag 2 0 0
    ⟨false, "Copied 0 files to raw layer with ingestion_date partitioning, 1 failed",
      [("failed_copies", .pairList [("users.csv", "Copy operation failed")])],
      1, []⟩
    ⟨false, "Copied 0 files to raw layer with ingestion_date partitioning, 1 failed",
      [("failed_copies", .pairList [("users.csv", "Copy operation failed")])],
      1, []⟩
    rfl rfl rfl rfl rfl rfl

/-- Python `str.split(sep)` with a single-character separator, accumulator
for the current piece (kept reversed). -/
def splitCharAux (c : Char) : List Char → List Char → List (List Char)
  | [], acc => [acc.reverse]
  | x :: xs, acc =>
    if x = c then acc.reverse :: splitCharAux c xs []
    else splitCharAux c xs (x :: acc)

/-- Python `s.split(sep)` for a one-character separator `c`:
`"a_b".split("_") = ["a","b"]`, `"".split("_") = [""]`. -/
def splitChar (c : Char) (s : String) : List String :=
  (splitCharAux c s.data []).map String.mk

/-- Python `sep.join(parts)`. -/
def joinSep (sep : String) : List String → String
  | [] => ""
  | [x] => x
  | x :: xs => x ++ sep ++ joinSep sep xs

/-- Python `s.endswith(suffix)`. -/
def strEndsWith (s suffix : String) : Bool :=
  List.isSuffixOf suffix.data s.data

/-- The extension test of `LandingToRawProcessor._extract`:
`file_name.endswith((".csv", ".json", ".jsonl"))`. -/
def hasTabularExt (file_name : String) : Bool :=
  strEndsWith file_name ".csv" || strEndsWith file_name ".json" ||
    strEndsWith file_name ".jsonl"

/-- Python `pathlib.Path(name).stem` for a bare file name: the name without
its last dot-extension; a name whose only dot is the leading one (such as
`.bashrc`) has no extension and is its own stem. -/
def stemOf (name : String) : String :=
  match splitChar '.' name with
  | [] => name
  | [_] => name
  | "" :: [_] => name
  | parts => joinSep "." parts.dropLast

/-- `FileDescriptor` of the spec: the `file_info` dict built by
`LandingToRawProcessor._extract` (src/core/landing_to_raw_processor.py,
lines 89-96). -/
structure FileInfo where
  landing_key : String
  name : String
  table_type : String
  file_date : String
  size : Nat
  raw_key : String
deriving DecidableEq

/-- Builds the `file_info` dict of `_extract`: `size` is hardcoded 0 and
`raw_key` is `f"{self.raw_prefix}/ingestion_date={file_date}/{file_name}"`
(`raw_pfx` stands for the processor's `raw_prefix` setting). -/
def mkFileInfo (object_key file_name table_type file_date raw_pfx : String) :
    FileInfo :=
  ⟨object_key, file_name, table_type, file_date, 0,
    raw_pfx ++ "/ingestion_date=" ++ file_date ++ "/" ++ file_name⟩

/-- The loop body of `LandingToRawProcessor._extract` for one listed object
key (src/core/landing_to_raw_processor.py, lines 70-98): keep only names
with a tabular extension; when the stem has an underscore and its last
`_`-segment has exactly two hyphens, that segment is the file date (skip on
date mismatch) and the joined remaining segments are the table type;
otherwise the whole stem is the table type and the date is the target one. -/
def landingExtractStep (raw_pfx ingestion_date : String)
    (extracted_files : Dict FileInfo) (object_key : String) : Dict FileInfo :=
  let file_name := (splitChar '/' object_key).getLastD ""
  if hasTabularExt file_name then
    let stem := stemOf file_name
    if stem.data.contains '_' &&
        ((splitChar '_' stem).getLastD "").data.count '-' == 2 then
      let table_type := joinSep "_" (splitChar '_' stem).dropLast
      let file_date := (splitChar '_' stem).getLastD ""
      if file_date != ingestion_date then extracted_files
      else dictInsert extracted_files table_type
        (mkFileInfo object_key file_name table_type file_date raw_pfx)
    else
      dictInsert extracted_files stem
        (mkFileInfo object_key file_name stem ingestion_date raw_pfx)
  else extracted_files

/-- `LandingToRawProcessor._extract` (src/core/landing_to_raw_processor.py,
lines 57-105).  The landing listing collaborator is passed in as `listing`;
if it raises, the whole accumulation is abandoned and the empty mapping is
returned (the `except` branch returns `{}`). -/
def LandingToRawProcessor.extract (listing : Except String (List String))
    (raw_pfx ingestion_date : String) : Dict FileInfo :=
  match listing with
  | .error _ => []
  | .ok files_in_landing =>
    files_in_landing.foldl (landingExtractStep raw_pfx ingestion_date) []

/-- Whether the copy collaborator succeeds on an item of the extracted
mapping (returns `True` without raising). -/
def copyOutcomeOk (copy : String → String → Except String Bool)
    (item : String × FileInfo) : Bool :=
  match copy item.2.landing_key item.2.raw_key with
  | .ok true => true
  | _ => false

/-- The `failed_copies` entry recorded by `_load` for a failing item:
`{'file': name, 'error': 'Copy operation failed'}` when the copy returns
`False`, `{'file': name, 'error': str(e)}` when it raises. -/
def copyFailEntry (copy : String → String → Except String Bool)
    (item : String × FileInfo) : String × String :=
  match copy item.2.landing_key item.2.raw_key with
  | .ok true => (item.2.name, "")
  | .ok false => (item.2.name, "Copy operation failed")
  | .error e => (item.2.name, e)

/-- One iteration of the copy loop of `LandingToRawProcessor._load`
(src/core/landing_to_raw_processor.py, lines 126-149), accumulating
`successful_copies` and `failed_copies`. -/
def copyStep (copy : String → String → Except String Bool)
    (acc : Nat × List (String × String)) (item : String × FileInfo) :
    Nat × List (String × String) :=
  match copy item.2.landing_key item.2.raw_key with
  | .ok true => (acc.1 + 1, acc.2)
  | .ok false => (acc.1, acc.2 ++ [(item.2.name, "Copy operation failed")])
  | .error e => (acc.1, acc.2 ++ [(item.2.name, e)])

/-- `LandingToRawProcessor._load` (src/core/landing_to_raw_processor.py,
lines 116-169): copy every extracted file, collect per-file failures,
report success iff no failure, `rows_processed` = number of files. -/
def LandingToRawProcessor.load (copy : String → String → Except String Bool)
    (raw_pfx ingestion_date : String) (transformed_data : Dict FileInfo) :
    ProcessingResult :=
  let r := transformed_data.foldl (copyStep copy) (0, [])
  let successful_copies := r.1
  let failed_copies := r.2
  { success := failed_copies.length == 0
    message := "Copied " ++ toString successful_copies ++
      " files to raw layer with ingestion_date partitioning" ++
      (if failed_copies.length == 0 then ""
       else ", " ++ toString failed_copies.length ++ " failed")
    metadata := [("successful_copies", .nat successful_copies),
      ("failed_copies", .pairList failed_copies),
      ("files_processed", .strList (transformed_data.map Prod.fst)),
      ("raw_prefix", .str raw_pfx),
      ("ingestion_date", .str ingestion_date),
      ("partitioned", .bool true)]
    rows_processed := transformed_data.length
    tables_created := [] }

theorem foldl_copyStep (copy : String → String → Except String Bool)
    (data : Dict FileInfo) : ∀ (n : Nat) (l : List (String × String)),
    data.foldl (copyStep copy) (n, l) =
      (n + (data.filter (copyOutcomeOk copy)).length,
       l ++ (data.filter (fun i => ! copyOutcomeOk copy i)).map
          (copyFailEntry copy)) := by
  induction data with
  | nil => intro n l; simp
  | cons hd tl ih =>
    intro n l
    rcases hc : copy hd.2.landing_key hd.2.raw_key with e | b
    · simp [copyStep, copyOutcomeOk, copyFailEntry, hc, ih,
        List.filter_cons]
    · cases b
      · simp [copyStep, copyOutcomeOk, copyFailEntry, hc, ih,
          List.filter_cons]
      · simp [copyStep, copyOutcomeOk, copyFailEntry, hc, ih,
          List.filter_cons, Nat.add_comm, Nat.add_assoc, Nat.add_left_comm]

theorem length_filter_partition {α : Type} (p : α → Bool) (l : List α) :
    (l.filter p).length + (l.filter (fun a => ! p a)).length = l.length := by
  induction l with
  | nil => simp
  | cons hd tl ih =>
    by_cases hp : p hd <;> simp [List.filter_cons, hp] <;> omega

/-- C4: in a Landing-to-Raw load, `successful_copies` counts exactly the
extracted descriptors whose copy succeeded and `failed_copies` is exactly
the list of the remaining descriptors (with their error text), so the two
partition the extracted mapping with no overlap and no omission; the
result's success flag is true iff `failed_copies` is empty; and
`rows_processed` is the number of files in the mapping. -/
theorem landing_load_partition (copy : String → String → Except String Bool)
    (raw_pfx ingestion_date : String) (data : Dict FileInfo) :
    (LandingToRawProcessor.load copy raw_pfx ingestion_date data).rows_processed
        = data.length ∧
    List.lookup "successful_copies"
        (LandingToRawProcessor.load copy raw_pfx ingestion_date data).metadata
      = some (.nat (data.filter (copyOutcomeOk copy)).length) ∧
    List.lookup "failed_copies"
        (LandingToRawProcessor.load copy raw_pfx ingestion_date data).metadata
      = some (.pairList ((data.filter (fun i => ! copyOutcomeOk copy i)).map
          (copyFailEntry copy))) ∧
    (data.filter (copyOutcomeOk copy)).length +
        ((data.filter (fun i => ! copyOutcomeOk copy i)).map
          (copyFailEntry copy)).length = data.length ∧
    ((LandingToRawProcessor.load copy raw_pfx ingestion_date data).success
        = true ↔
      (data.filter (fun i => ! copyOutcomeOk copy i)).map (copyFailEntry copy)
        = []) := by
  have hfold := foldl_copyStep copy data 0 []
  refine ⟨rfl, ?_, ?_, ?_, ?_⟩
  · simp [LandingToRawProcessor.load, hfold, List.lookup]
  · simp [LandingToRawProcessor.load, hfold, List.lookup]
  · simpa using length_filter_partition (copyOutcomeOk copy) data
  · simp [LandingToRawProcessor.load, hfold, List.length_eq_zero]

/-- C6: when the landing listing itself raises, extract returns the empty
mapping, and the load over the empty mapping reports `success=true`,
`rows_processed=0` and `successful_copies=0`. -/
theorem landing_discovery_error_quirk (e raw_pfx ingestion_date : String)
    (copy : String → String → Except String Bool) :
    LandingToRawProcessor.extract (.error e) raw_pfx ingestion_date = [] ∧
    (LandingToRawProcessor.load copy raw_pfx ingestion_date []).success
        = true ∧
    (LandingToRawProcessor.load copy raw_pfx ingestion_date []).rows_processed
        = 0 ∧
    List.lookup "successful_copies"
        (LandingToRawProcessor.load copy raw_pfx ingestion_date []).metadata
      = some (.nat 0) := by
  refine ⟨rfl, rfl, rfl, ?_⟩
  simp [LandingToRawProcessor.load, List.lookup]

/-- Modelled from claim C5's words, literally: classify one listed object
key with no underscore requirement — whenever the stem's last `_`-delimited
segment contains exactly two hyphens, the text before that segment is the
table-type token and the segment is the file's date (skipping on date
mismatch); otherwise the whole stem is the token with the target date. -/
def specClassifyC5 (raw_pfx ingestion_date : String) (object_key : String) :
    Option (String × FileInfo) :=
  let file_name := (splitChar '/' object_key).getLastD ""
  if hasTabularExt file_name then
    let stem := stemOf file_name
    let segs := splitChar '_' stem
    let lastSeg := segs.getLastD ""
    if lastSeg.data.count '-' == 2 then
      if lastSeg != ingestion_date then none
      else some (joinSep "_" segs.dropLast,
        mkFileInfo object_key file_name (joinSep "_" segs.dropLast) lastSeg
          raw_pfx)
    else some (stem, mkFileInfo object_key file_name stem ingestion_date
      raw_pfx)
  else none

/-- The extract mapping claim C5 describes, built from `specClassifyC5` with
last-listed-wins overwriting. -/
def specExtractC5 (listing : Except String (List String))
    (raw_pfx ingestion_date : String) : Dict FileInfo :=
  match listing with
  | .error _ => []
  | .ok keys =>
    keys.foldl (fun m k =>
      match specClassifyC5 raw_pfx ingestion_date k with
      | none => m
      | some (tok, fi) => dictInsert m tok fi) []

/-- C5 counterexample: for the listed key `01-02-03.csv` (stem with two
hyphens but no underscore) and target date `2099-01-01`, the claim's
dated-segment rule says the file's date is `01-02-03` and the file is
skipped, but the code requires an underscore in the stem, takes the whole
stem as token, assumes the target date and keeps the file. -/
theorem landing_extract_cex :
    LandingToRawProcessor.extract (.ok ["01-02-03.csv"]) "raw" "2099-01-01" ≠
      specExtractC5 (.ok ["01-02-03.csv"]) "raw" "2099-01-01" := by
  decide

/-- Modelled from claim C5 as amended: identical to `specClassifyC5` except
that the dated branch additionally requires the stem to contain an
underscore, as the code's `'_' in stem` conjunct does. -/
def specClassifyC5Amended (raw_pfx ingestion_date : String)
    (object_key : String) : Option (String × FileInfo) :=
  let file_name := (splitChar '/' object_key).getLastD ""
  if hasTabularExt file_name then
    let stem := stemOf file_name
    let segs := splitChar '_' stem
    let lastSeg := segs.getLastD ""
    if stem.data.contains '_' && lastSeg.data.count '-' == 2 then
      if lastSeg != ingestion_date then none
      else some (joinSep "_" segs.dropLast,
        mkFileInfo object_key file_name (joinSep "_" segs.dropLast) lastSeg
          raw_pfx)
    else some (stem, mkFileInfo object_key file_name stem ingestion_date
      raw_pfx)
  else none

/-- The extract mapping of the amended claim C5. -/
def specExtractC5Amended (listing : Except String (List String))
    (raw_pfx ingestion_date : String) : Dict FileInfo :=
  match listing with
  | .error _ => []
  | .ok keys =>
    keys.foldl (fun m k =>
      match specClassifyC5Amended raw_pfx ingestion_date k with
      | none => m
      | some (tok, fi) => dictInsert m tok fi) []

theorem landingExtractStep_eq_spec (raw_pfx ingestion_date : String)
    (m : Dict FileInfo) (k : String) :
    landingExtractStep raw_pfx ingestion_date m k =
      (match specClassifyC5Amended raw_pfx ingestion_date k with
       | none => m
       | some (tok, fi) => dictInsert m tok fi) := by
  simp only [landingExtractStep, specClassifyC5Amended]
  by_cases h1 : hasTabularExt ((splitChar '/' k).getLastD "") = true
  · rw [if_pos h1, if_pos h1]
    by_cases h2 : ((stemOf ((splitChar '/' k).getLastD "")).data.contains '_'
        && ((splitChar '_'
            (stemOf ((splitChar '/' k).getLastD ""))).getLastD "").data.count
            '-' == 2) = true
    · rw [if_pos h2, if_pos h2]
      by_cases h3 : (((splitChar '_'
          (stemOf ((splitChar '/' k).getLastD ""))).getLastD "")
          != ingestion_date) = true
      · rw [if_pos h3, if_pos h3]
      · rw [if_neg h3, if_neg h3]
    · rw [if_neg h2, if_neg h2]
  · rw [if_neg h1, if_neg h1]

/-- C5 amended: for every listing outcome, raw prefix and target date, the
code's extract mapping is exactly the claim's mapping once the dated branch
additionally requires an underscore in the stem: include only `.csv`,
`.json`, `.jsonl` names; when the stem contains an underscore and its last
`_`-delimited segment has exactly two hyphens, that segment is the file's
date (the file is skipped if it differs from the target) and the text
before it is the token; otherwise the whole stem is the token with the
target date; later listed files overwrite earlier ones per token. -/
theorem landing_extract_amended (listing : Except String (List String))
    (raw_pfx ingestion_date : String) :
    LandingToRawProcessor.extract listing raw_pfx ingestion_date =
      specExtractC5Amended listing raw_pfx ingestion_date := by
  cases listing with
  | error e => rfl
  | ok keys =>
    simp only [LandingToRawProcessor.extract, specExtractC5Amended]
    exact List.foldl_ext _ _ []
      (fun m k _ => landingExtractStep_eq_spec raw_pfx ingestion_date m k)

/-- A pandas cell value, classified the way the view-literal rendering of
`RawToTrustedProcessor._post_process` distinguishes values: a missing value
(`pd.isna`), a numeric value carrying its `str()` rendering, or any other
value carrying its `str()` rendering. -/
inductive Cell where
  | na
  | num (rep : String)
  | text (s : String)
deriving DecidableEq

/-- A pandas DataFrame: a row count and named columns in order, each column
holding one cell per row. -/
structure DataFrame where
  nrows : Nat
  cols : List (String × List Cell)
deriving DecidableEq

/-- The per-table body of `RawToTrustedProcessor._transform`
(src/core/raw_to_trusted_processor.py, lines 130-140):
`if 'ingestion_date' not in df.columns: df['ingestion_date'] = self.ingestion_date`
appends an `ingestion_date` column with every row set to the target date;
a pre-existing `ingestion_date` column is left untouched. -/
def RawToTrustedProcessor.transformTable (ingestion_date : String)
    (df : DataFrame) : DataFrame :=
  if (df.cols.map Prod.fst).contains "ingestion_date" then df
  else ⟨df.nrows, df.cols ++
    [("ingestion_date", List.replicate df.nrows (Cell.text ingestion_date))]⟩

/-- `RawToTrustedProcessor._transform` over the whole extracted mapping:
each entry `(table_key, dataframe, trusted_table)` keeps its key and
trusted-table name and gets the transformed dataframe. -/
def RawToTrustedProcessor.transform (ingestion_date : String)
    (extracted_data : List (String × DataFrame × String)) :
    List (String × DataFrame × String) :=
  extracted_data.map (fun item =>
    (item.1, RawToTrustedProcessor.transformTable ingestion_date item.2.1,
      item.2.2))

theorem lookup_append_single_ne {α : Type} (l : Dict α) (k c : String)
    (v : α) (h : c ≠ k) :
    List.lookup c (l ++ [(k, v)]) = List.lookup c l := by
  induction l with
  | nil =>
    have hb : (c == k) = false := by simp [h]
    simp [List.lookup, hb]
  | cons hd tl ih =>
    obtain ⟨k0, v0⟩ := hd
    by_cases h0 : c = k0
    · subst h0
      simp [List.lookup]
    · have hb : (c == k0) = false := by simp [h0]
      simp [List.lookup, hb, ih]

theorem lookup_append_single_self {α : Type} (l : Dict α) (k : String)
    (v : α) :
    List.lookup k (l ++ [(k, v)]) = (List.lookup k l).getD v := by
  induction l with
  | nil => simp [List.lookup]
  | cons hd tl ih =>
    obtain ⟨k0, v0⟩ := hd
    by_cases h0 : k = k0
    · subst h0
      simp [List.lookup]
    · have hb : (k == k0) = false := by simp [h0]
      simp [List.lookup, hb, ih]

theorem containsKey_eq_lookup_isSome {α : Type} (k : String) :
    ∀ (l : Dict α), (l.map Prod.fst).contains k = (List.lookup k l).isSome
  | [] => rfl
  | (k0, v0) :: tl => by
    rw [List.map_cons, List.contains_cons, List.lookup]
    cases hbeq : k == k0
    · simp only [hbeq, Bool.false_or]
      exact containsKey_eq_lookup_isSome k tl
    · simp [hbeq]

/-- C7 counterexample: a raw table that already carries an `ingestion_date`
column with a foreign value is passed through unchanged by the transform, so
the table written to the trusted area holds a value different from the
configured target date, refuting the claim's universal equality. -/
theorem raw_transform_foreign_date_cex :
    RawToTrustedProcessor.transformTable "2025-09-09"
        ⟨1, [("ingestion_date", [Cell.text "2020-01-01"])]⟩ =
      ⟨1, [("ingestion_date", [Cell.text "2020-01-01"])]⟩ ∧
    List.lookup "ingestion_date"
        (RawToTrustedProcessor.transformTable "2025-09-09"
          ⟨1, [("ingestion_date", [Cell.text "2020-01-01"])]⟩).cols =
      some [Cell.text "2020-01-01"] ∧
    Cell.text "2020-01-01" ≠ Cell.text "2025-09-09" := by
  decide

/-- C7 amended: every transformed (hence trusted-written) table contains an
`ingestion_date` column; when the extracted table lacked one, the appended
column holds the configured target date in every row; no other column is
changed; and a pre-existing `ingestion_date` column leaves the table fully
unchanged (so its values are not forced to the target date). -/
theorem raw_transform_ingestion_date_col (ingestion_date : String)
    (df : DataFrame) (c : String) (hc : c ≠ "ingestion_date") :
    (∃ vs, List.lookup "ingestion_date"
        (RawToTrustedProcessor.transformTable ingestion_date df).cols
      = some vs) ∧
    (RawToTrustedProcessor.transformTable ingestion_date df).nrows
      = df.nrows ∧
    (List.lookup "ingestion_date" df.cols = none →
      List.lookup "ingestion_date"
          (RawToTrustedProcessor.transformTable ingestion_date df).cols
        = some (List.replicate df.nrows (Cell.text ingestion_date))) ∧
    List.lookup c (RawToTrustedProcessor.transformTable ingestion_date df).cols
      = List.lookup c df.cols ∧
    (∀ vs, List.lookup "ingestion_date" df.cols = some vs →
      RawToTrustedProcessor.transformTable ingestion_date df = df) := by
  by_cases hmem : (df.cols.map Prod.fst).contains "ingestion_date" = true
  · have hif : RawToTrustedProcessor.transformTable ingestion_date df = df := by
      unfold RawToTrustedProcessor.transformTable
      rw [if_pos hmem]
    have hsome : (List.lookup "ingestion_date" df.cols).isSome = true := by
      rw [← containsKey_eq_lookup_isSome]
      exact hmem
    rcases hlk : List.lookup "ingestion_date" df.cols with _ | v
    · rw [hlk] at hsome
      exact absurd hsome (by simp)
    · refine ⟨⟨v, by rw [hif, hlk]⟩, by rw [hif], ?_, by rw [hif],
        fun vs _ => hif⟩
      intro hnone
      exact absurd hnone (by simp)
  · have hmem' : (df.cols.map Prod.fst).contains "ingestion_date" = false := by
      cases hF : (df.cols.map Prod.fst).contains "ingestion_date"
      · rfl
      · exact absurd hF hmem
    have hnone : List.lookup "ingestion_date" df.cols = none := by
      have hiff := containsKey_eq_lookup_isSome "ingestion_date" df.cols
      rw [hmem'] at hiff
      rcases hlk : List.lookup "ingestion_date" df.cols with _ | v
      · rfl
      · rw [hlk] at hiff
        exact absurd hiff.symm (by simp)
    have hif : RawToTrustedProcessor.transformTable ingestion_date df =
        ⟨df.nrows, df.cols ++ [("ingestion_date",
          List.replicate df.nrows (Cell.text ingestion_date))]⟩ := by
      unfold RawToTrustedProcessor.transformTable
      rw [if_neg hmem]
    refine ⟨?_, by rw [hif], ?_, ?_, ?_⟩
    · refine ⟨List.replicate df.nrows (Cell.text ingestion_date), ?_⟩
      rw [hif]
      show List.lookup _ (df.cols ++ _) = _
      rw [lookup_append_single_self, hnone]
      rfl
    · intro _
      rw [hif]
      show List.lookup _ (df.cols ++ _) = _
      rw [lookup_append_single_self, hnone]
      rfl
    · rw [hif]
      show List.lookup c (df.cols ++ _) = _
      exact lookup_append_single_ne _ _ _ _ hc
    · intro vs hvs
      rw [hnone] at hvs
      exact absurd hvs (by simp)

/-- C7 witness: transforming a concrete table without an `ingestion_date`
column appends the target-date column and leaves the `user_id` column
unchanged. -/
theorem raw_transform_ingestion_date_col_witness :
    List.lookup "ingestion_date"
        (RawToTrustedProcessor.transformTable "2025-09-09"
          ⟨2, [("user_id", [Cell.text "u1", Cell.text "u2"])]⟩).cols
      = some (List.replicate 2 (Cell.text "2025-09-09")) ∧
    List.lookup "user_id"
        (RawToTrustedProcessor.transformTable "2025-09-09"
          ⟨2, [("user_id", [Cell.text "u1", Cell.text "u2"])]⟩).cols
      = some [Cell.text "u1", Cell.text "u2"] := by
  have h := raw_transform_ingestion_date_col "2025-09-09"
    ⟨2, [("user_id", [Cell.text "u1", Cell.text "u2"])]⟩ "user_id"
    (by decide)
  exact ⟨h.2.2.1 (by decide), h.2.2.2.1.trans (by decide)⟩

/-- One entry of `TRUSTED_SCHEMAS` (src/utils/schema_registry.py): ordered
column definitions, partition columns, and the storage-location suffix. -/
structure TableSchema where
  columns : List (String × String)
  partition_cols : List String
  location_suffix : String
deriving DecidableEq

/-- `TRUSTED_SCHEMAS` from src/utils/schema_registry.py, in declaration
order. -/
def TRUSTED_SCHEMAS : Dict TableSchema :=
  [("trusted_users",
    ⟨[("user_id", "VARCHAR"), ("signup_date", "VARCHAR"),
      ("subscription_tier", "VARCHAR"), ("age_group", "VARCHAR"),
      ("gender", "VARCHAR"), ("ingestion_date", "VARCHAR")],
      ["ingestion_date"], "users"⟩),
   ("trusted_videos",
    ⟨[("video_id", "VARCHAR"), ("title", "VARCHAR"), ("genre", "VARCHAR"),
      ("duration_seconds", "INTEGER"), ("patent_id", "VARCHAR"),
      ("ingestion_date", "VARCHAR")],
      ["ingestion_date"], "videos"⟩),
   ("trusted_devices",
    ⟨[("device", "VARCHAR"), ("os", "VARCHAR"), ("model", "VARCHAR"),
      ("os_version", "DECIMAL(3,1)"), ("ingestion_date", "VARCHAR")],
      ["ingestion_date"], "devices"⟩),
   ("trusted_events",
    ⟨[("timestamp", "VARCHAR"), ("account_id", "VARCHAR"),
      ("video_id", "VARCHAR"), ("user_id", "VARCHAR"),
      ("event_name", "VARCHAR"), ("value", "DECIMAL(2,1)"),
      ("device", "VARCHAR"), ("app_version", "VARCHAR"),
      ("device_os", "VARCHAR"), ("network_type", "VARCHAR"),
      ("ip", "VARCHAR"), ("country", "VARCHAR"), ("session_id", "VARCHAR"),
      ("ingestion_date", "VARCHAR")],
      ["ingestion_date"], "events"⟩)]

/-- `get_trusted_schema` from src/utils/schema_registry.py; the
`ValueError` raised for an unknown table is modelled as `none`. -/
def get_trusted_schema (table_name : String) : Option TableSchema :=
  List.lookup table_name TRUSTED_SCHEMAS

/-- `get_all_trusted_tables` from src/utils/schema_registry.py. -/
def get_all_trusted_tables : List String :=
  TRUSTED_SCHEMAS.map Prod.fst

/-- `build_view_ddl` from src/utils/schema_registry.py, lines 115-130:
the produced text is the Python triple-quoted f-string verbatim, with its
leading newline and four-space indentation. -/
def build_view_ddl (table_name : String) (data_values : List String) :
    Option String :=
  (get_trusted_schema table_name).map (fun schema =>
    let column_names := schema.columns.map Prod.fst
    let columns_str := joinSep ", " column_names
    "\n    CREATE OR REPLACE VIEW hive.streampro." ++ table_name ++
      " AS\n    SELECT " ++ columns_str ++ " FROM (\n        VALUES " ++
      joinSep ", " data_values ++ "\n    ) AS t(" ++ columns_str ++
      ")\n    ")

/-- C9: for every registered table and every list of N literal row strings,
the view DDL is exactly the template
`CREATE OR REPLACE VIEW hive.streampro.<table> AS SELECT <cols> FROM
(VALUES <row-literals>) AS t(<cols>)` in which both `<cols>` occurrences are
the schema's declared column names joined in declared order and the VALUES
clause is the comma-join of exactly the N given row literals. -/
theorem build_view_ddl_shape (table_name : String)
    (data_values : List String) (schema : TableSchema)
    (h : get_trusted_schema table_name = some schema) :
    build_view_ddl table_name data_values = some (
      "\n    CREATE OR REPLACE VIEW hive.streampro." ++ table_name ++
      " AS\n    SELECT " ++ joinSep ", " (schema.columns.map Prod.fst) ++
      " FROM (\n        VALUES " ++ joinSep ", " data_values ++
      "\n    ) AS t(" ++ joinSep ", " (schema.columns.map Prod.fst) ++
      ")\n    ") := by
  simp only [build_view_ddl, h]
  rfl

set_option maxRecDepth 8192 in
/-- C9 witness: the DDL built for `trusted_users` from two literal rows,
fully evaluated. -/
theorem build_view_ddl_shape_witness :
    build_view_ddl "trusted_users" ["(NULL)", "(NULL)"] = some
      ("\n    CREATE OR REPLACE VIEW hive.streampro.trusted_users AS\n    SELECT user_id, signup_date, subscription_tier, age_group, gender, ingestion_date FROM (\n        VALUES (NULL), (NULL)\n    ) AS t(user_id, signup_date, subscription_tier, age_group, gender, ingestion_date)\n    ") := by
  have h := build_view_ddl_shape "trusted_users" ["(NULL)", "(NULL)"]
    ⟨[("user_id", "VARCHAR"), ("signup_date", "VARCHAR"),
      ("subscription_tier", "VARCHAR"), ("age_group", "VARCHAR"),
      ("gender", "VARCHAR"), ("ingestion_date", "VARCHAR")],
      ["ingestion_date"], "users"⟩ rfl
  rw [h]
  decide

/-- Python `str.replace(pat, rep)` over character lists for a nonempty
pattern: scan left to right, replacing non-overlapping occurrences.  The
fuel argument (initialised to the text length) only makes the recursion
structural; every step consumes at least one character. -/
def replaceFuel (pat rep : List Char) : Nat → List Char → List Char
  | 0, l => l
  | _ + 1, [] => []
  | n + 1, c :: cs =>
    if pat.isPrefixOf (c :: cs) && !pat.isEmpty then
      rep ++ replaceFuel pat rep n ((c :: cs).drop pat.length)
    else c :: replaceFuel pat rep n cs

/-- Python `s.replace(pat, rep)` for a nonempty pattern, as used by
`table_name.replace('trusted_', '')` in the Raw-to-Trusted processor. -/
def pyReplace (s pat rep : String) : String :=
  ⟨replaceFuel pat.data rep.data s.data.length s.data⟩

/-- The two format-specific readers of `RawToTrustedProcessor`:
`extract_jsonl` (line-delimited JSON) and `extract_csv`. -/
inductive ReaderFormat where
  | csv
  | jsonl
deriving DecidableEq

/-- One planned read of `RawToTrustedProcessor._extract`
(src/core/raw_to_trusted_processor.py, lines 89-122): the trusted table
name, the derived table key, the reader chosen for it, and the raw file
path handed to that reader (the reader itself appends `.csv` or `.jsonl`
to this path). -/
structure ReadPlan where
  trusted_table : String
  table_key : String
  reader : ReaderFormat
  raw_file_path : String
deriving DecidableEq

/-- The deterministic read plan of `RawToTrustedProcessor._extract`: for
every registry table, `table_key = table_name.replace('trusted_', '')`,
`raw_file_path = f"raw/ingestion_date={date}/{table_key}_{date}"` (note the
hardcoded `raw` prefix in the source), and the `events` key is read as
JSONL, every other key as CSV. -/
def extractReadPlan (ingestion_date : String) : List ReadPlan :=
  get_all_trusted_tables.map (fun table_name =>
    let table_key := pyReplace table_name "trusted_" ""
    ⟨table_name, table_key,
      (if table_key == "events" then ReaderFormat.jsonl else ReaderFormat.csv),
      "raw/ingestion_date=" ++ ingestion_date ++ "/" ++ table_key ++ "_" ++
        ingestion_date⟩)

/-- The claim's raw-area source-key template,
`{raw_prefix}/ingestion_date={date}/{token}_{date}`, parameterised by the
configured raw prefix. -/
def specRawSourceKey (raw_pfx ingestion_date token : String) : String :=
  raw_pfx ++ "/ingestion_date=" ++ ingestion_date ++ "/" ++ token ++ "_" ++
    ingestion_date

/-- Accumulator of the write loop of `RawToTrustedProcessor._load`. -/
structure TrustedLoadAcc where
  tables_created : List String
  successful_loads : Nat
  failed_loads : List (String × String)
  writes : List (String × DataFrame)
deriving DecidableEq

/-- One iteration of the write loop of `RawToTrustedProcessor._load`
(src/core/raw_to_trusted_processor.py, lines 164-192): compute the trusted
object key, attempt the upload (recorded in `writes`); on success append
the trusted table name and count the load, on returned failure record
`Failed to write to MinIO` (the raised-then-caught exception text), on a
raised exception record its description. -/
def trustedLoadStep (upload : String → DataFrame → Except String Bool)
    (trusted_pfx ingestion_date : String) (acc : TrustedLoadAcc)
    (item : String × DataFrame × String) : TrustedLoadAcc :=
  let object_key := trusted_pfx ++ "/" ++ item.1 ++ "/ingestion_date=" ++
    ingestion_date ++ "/data.parquet"
  match upload object_key item.2.1 with
  | .ok true =>
    ⟨acc.tables_created ++ [item.2.2], acc.successful_loads + 1,
      acc.failed_loads, acc.writes ++ [(object_key, item.2.1)]⟩
  | .ok false =>
    ⟨acc.tables_created, acc.successful_loads,
      acc.failed_loads ++ [(item.2.2, "Failed to write to MinIO")],
      acc.writes ++ [(object_key, item.2.1)]⟩
  | .error e =>
    ⟨acc.tables_created, acc.successful_loads,
      acc.failed_loads ++ [(item.2.2, e)],
      acc.writes ++ [(object_key, item.2.1)]⟩

/-- `RawToTrustedProcessor._load` (src/core/raw_to_trusted_processor.py,
lines 151-217): write each transformed table as parquet to its trusted key,
collecting per-table failures; `rows_processed` is the number of tables.
Besides the `ProcessingResult` it returns the list of attempted writes
(object key and dataframe); the idempotent `create_database_schema` call is
an external side effect with no bearing on the result. -/
def RawToTrustedProcessor.load
    (upload : String → DataFrame → Except String Bool)
    (trusted_pfx ingestion_date : String)
    (transformed_data : List (String × DataFrame × String)) :
    ProcessingResult × List (String × DataFrame) :=
  let acc := transformed_data.foldl
    (trustedLoadStep upload trusted_pfx ingestion_date) ⟨[], 0, [], []⟩
  ({ success := acc.failed_loads.length == 0
     message := "Created " ++ toString acc.successful_loads ++
       " trusted parquet tables" ++
       (if acc.failed_loads.length == 0 then ""
        else ", " ++ toString acc.failed_loads.length ++ " failed")
     metadata := [("successful_loads", .nat acc.successful_loads),
       ("failed_loads", .pairList acc.failed_loads),
       ("tables_processed", .strList (transformed_data.map Prod.fst)),
       ("trusted_prefix", .str trusted_pfx),
       ("ingestion_date", .str ingestion_date),
       ("format", .str "PARQUET"),
       ("compression", .str "SNAPPY"),
       ("partitioned", .bool true),
       ("trino_enabled", .bool true)]
     rows_processed := transformed_data.length
     tables_created := acc.tables_created }, acc.writes)

theorem foldl_trustedLoadStep_writes
    (upload : String → DataFrame → Except String Bool)
    (trusted_pfx ingestion_date : String)
    (data : List (String × DataFrame × String)) : ∀ (acc : TrustedLoadAcc),
    (data.foldl (trustedLoadStep upload trusted_pfx ingestion_date)
        acc).writes =
      acc.writes ++ data.map (fun item =>
        (trusted_pfx ++ "/" ++ item.1 ++ "/ingestion_date=" ++
          ingestion_date ++ "/data.parquet", item.2.1)) := by
  induction data with
  | nil => intro acc; simp
  | cons hd tl ih =>
    intro acc
    rcases hu : upload (trusted_pfx ++ "/" ++ hd.1 ++ "/ingestion_date=" ++
        ingestion_date ++ "/data.parquet") hd.2.1 with e | b
    · simp [trustedLoadStep, hu, ih]
    · cases b <;> simp [trustedLoadStep, hu, ih]

/-- C8 counterexample: the read path of Raw-to-Trusted extract is built
with a hardcoded `raw` prefix, so for a configured raw prefix `rawX` it is
not the claim's `{raw_prefix}/ingestion_date={date}/{token}_{date}`
template: the code reads `raw/...` regardless of the setting. -/
theorem raw_extract_key_cex :
    (extractReadPlan "2025-09-09").map ReadPlan.raw_file_path =
      ["raw/ingestion_date=2025-09-09/users_2025-09-09",
       "raw/ingestion_date=2025-09-09/videos_2025-09-09",
       "raw/ingestion_date=2025-09-09/devices_2025-09-09",
       "raw/ingestion_date=2025-09-09/events_2025-09-09"] ∧
    ¬ "raw/ingestion_date=2025-09-09/users_2025-09-09" =
        specRawSourceKey "rawX" "2025-09-09" "users" := by
  decide

/-- C8 amended: for every target date, the extract plan covers exactly the
four registered trusted tables; each table key is the table name with the
`trusted_` prefix stripped; each read path is
`raw/ingestion_date={date}/{token}_{date}` with the hardcoded `raw` prefix
(equal to the configured template only when the raw prefix is `raw`); the
JSONL reader is used exactly for the `events` token and the CSV reader for
all others; and the load writes each transformed table to
`{trusted_prefix}/{token}/ingestion_date={date}/data.parquet`. -/
theorem raw_extract_load_keys (ingestion_date trusted_pfx : String)
    (upload : String → DataFrame → Except String Bool)
    (transformed_data : List (String × DataFrame × String)) :
    extractReadPlan ingestion_date =
      [⟨"trusted_users", "users", ReaderFormat.csv,
          "raw/ingestion_date=" ++ ingestion_date ++ "/" ++ "users" ++ "_"
            ++ ingestion_date⟩,
       ⟨"trusted_videos", "videos", ReaderFormat.csv,
          "raw/ingestion_date=" ++ ingestion_date ++ "/" ++ "videos" ++ "_"
            ++ ingestion_date⟩,
       ⟨"trusted_devices", "devices", ReaderFormat.csv,
          "raw/ingestion_date=" ++ ingestion_date ++ "/" ++ "devices" ++ "_"
            ++ ingestion_date⟩,
       ⟨"trusted_events", "events", ReaderFormat.jsonl,
          "raw/ingestion_date=" ++ ingestion_date ++ "/" ++ "events" ++ "_"
            ++ ingestion_date⟩] ∧
    ("trusted_users" = "trusted_" ++ "users" ∧
      "trusted_videos" = "trusted_" ++ "videos" ∧
      "trusted_devices" = "trusted_" ++ "devices" ∧
      "trusted_events" = "trusted_" ++ "events") ∧
    (RawToTrustedProcessor.load upload trusted_pfx ingestion_date
        transformed_data).2 =
      transformed_data.map (fun item =>
        (trusted_pfx ++ "/" ++ item.1 ++ "/ingestion_date=" ++
          ingestion_date ++ "/data.parquet", item.2.1)) := by
  refine ⟨rfl, ⟨rfl, rfl, rfl, rfl⟩, ?_⟩
  simpa [RawToTrustedProcessor.load] using
    foldl_trustedLoadStep_writes upload trusted_pfx ingestion_date
      transformed_data ⟨[], 0, [], []⟩

/-- The single-quote character (codepoint 39) as a string. -/
def squote : String := String.singleton (Char.ofNat 39)

/-- The per-value rendering of the view-literal loop of
`RawToTrustedProcessor._post_process` (src/core/raw_to_trusted_processor.py,
lines 250-261): a missing value becomes `NULL`, an `int`/`float` value is
embedded unquoted as its `str()`, and any other value is embedded as a
single-quoted string with embedded single quotes doubled. -/
def renderCell : Cell → String
  | .na => "NULL"
  | .num rep => rep
  | .text s => squote ++ pyReplace s squote (squote ++ squote) ++ squote

/-- One row literal of `_post_process`: `f"({', '.join(values)})"` with one
rendered value per column of the re-read table, in column order. -/
def renderRow (row : List Cell) : String :=
  "(" ++ joinSep ", " (row.map renderCell) ++ ")"

/-- Row `i` of a dataframe, read across its columns in order (one cell per
column, as `row[col] for col in actual_columns` does). -/
def DataFrame.rowAt (df : DataFrame) (i : Nat) : List Cell :=
  df.cols.map (fun c => c.2.getD i Cell.na)

/-- The `values_list` built by `_post_process` from the re-read table:
`df.head(100).iterrows()` yields the first `min 100 nrows` rows, each
rendered as one parenthesised value tuple. -/
def postRenderValues (df : DataFrame) : List String :=
  (List.range (min 100 df.nrows)).map (fun i => renderRow (df.rowAt i))

/-- C10: the view literals embed at most 100 rows of the re-read table
(exactly `min 100 nrows`); a missing value renders as `NULL`; a numeric
value renders unquoted as its string form; every other value renders
single-quoted with embedded single quotes doubled (demonstrated on a value
containing a quote); and each row literal is the comma-join of its cells'
renderings in column order, parenthesised. -/
theorem post_view_literal_rendering (df : DataFrame) (rep s : String)
    (row : List Cell) :
    (postRenderValues df).length = min 100 df.nrows ∧
    (postRenderValues df).length ≤ 100 ∧
    renderCell Cell.na = "NULL" ∧
    renderCell (Cell.num rep) = rep ∧
    renderCell (Cell.text s) = squote ++ pyReplace s squote (squote ++ squote) ++ squote ∧
    renderCell (Cell.text ("a" ++ squote ++ "b")) =
      squote ++ "a" ++ squote ++ squote ++ "b" ++ squote ∧
    renderRow row = "(" ++ joinSep ", " (row.map renderCell) ++ ")" := by
  have hlen : (postRenderValues df).length = min 100 df.nrows := by
    simp [postRenderValues]
  exact ⟨hlen, by rw [hlen]; exact Nat.min_le_left _ _, rfl, rfl, rfl,
    by decide, rfl⟩
